import Mathlib

/-!
Verification of the tabular employee extractor in
`src/components/ChatInterface.tsx` (`extremeNormalize`, `TARGET_HEADERS`,
`processWorkbookRobustly`, `extractEmployeesFromExcel`).

The grid produced by `XLSX.utils.sheet_to_json(ws, \x7b header: 1, defval: "" \x7d)`
is modelled as a list of rows of string cells (the workbook is read with
`raw: false`, so cells arrive as formatted text; `defval: ""` fills blanks).
JavaScript runtime primitives used by the code are embedded explicitly:
`String.prototype.trim` and the regex class `\s` use the ECMAScript
WhiteSpace ∪ LineTerminator set, array indexing out of range yields
`undefined`, and `x || d` substitutes `d` for falsy `x` (here: `undefined`
or the empty string).
-/

/-- A spreadsheet cell, as delivered by `sheet_to_json` with `raw: false`. -/
abbrev Cell := String

abbrev Row := List Cell

abbrev Grid := List Row

/-- The ECMAScript WhiteSpace / LineTerminator set used by
`String.prototype.trim` and by the regex character class `\s`. -/
def isJsWhitespace (c : Char) : Bool :=
  c.toNat = 9 || c.toNat = 10 || c.toNat = 11 || c.toNat = 12 || c.toNat = 13 ||
  c.toNat = 32 || c.toNat = 0xA0 || c.toNat = 0x1680 ||
  (0x2000 ≤ c.toNat && c.toNat ≤ 0x200A) ||
  c.toNat = 0x2028 || c.toNat = 0x2029 || c.toNat = 0x202F ||
  c.toNat = 0x205F || c.toNat = 0x3000 || c.toNat = 0xFEFF

/-- JavaScript `String.prototype.trim`. -/
def jsTrim (s : String) : String :=
  String.mk (((s.toList.dropWhile isJsWhitespace).reverse.dropWhile isJsWhitespace).reverse)

/-- Does `pre` occur at the head of `s`? -/
def charsStartWith : List Char → List Char → Bool
  | _, [] => true
  | [], _ :: _ => false
  | c :: cs, d :: ds => c = d && charsStartWith cs ds

/-- Does `sub` occur contiguously anywhere in `s`? -/
def charsContain : List Char → List Char → Bool
  | [], sub => sub.isEmpty
  | c :: rest, sub => charsStartWith (c :: rest) sub || charsContain rest sub

/-- JavaScript `s.includes(sub)`. -/
def strIncludes (s sub : String) : Bool :=
  charsContain s.toList sub.toList

/-- Compatibility decomposition of one character, as performed by
`String.prototype.normalize("NFKC")`.  Modelled as a table restricted to the
characters that occur in this development (the ideographic space and the
half-width katakana of the synonym lists and test strings); every other
character occurring here is NFKC-invariant, so the default is the identity. -/
def nfkcChar (c : Char) : List Char :=
  if c = '　' then [' ']
  else if c = 'ｶ' then ['カ']
  else if c = 'ｺ' then ['コ']
  else if c = 'ﾄ' then ['ト']
  else if c = 'ﾅ' then ['ナ']
  else if c = 'ﾑ' then ['ム']
  else if c = 'ﾗ' then ['ラ']
  else if c = 'ｰ' then ['ー']
  else if c.toNat = 0xFF9E then [Char.ofNat 0x3099]
  else if c.toNat = 0xFF9F then [Char.ofNat 0x309A]
  else [c]

/-- Canonical composition of a base katakana with a combining voiced sound
mark (U+3099), for the pairs reachable from `nfkcChar`'s table. -/
def composeKana (c m : Char) : Option Char :=
  if m.toNat = 0x3099 then
    if c = 'ト' then some 'ド'
    else if c = 'カ' then some 'ガ'
    else if c = 'コ' then some 'ゴ'
    else none
  else none

/-- Canonical composition pass over a decomposed character sequence. -/
def composeChars : List Char → List Char
  | [] => []
  | [c] => [c]
  | c :: d :: rest =>
    match composeKana c d with
    | some e => e :: composeChars rest
    | none => c :: composeChars (d :: rest)

/-- `String.prototype.normalize("NFKC")`: compatibility decomposition
followed by canonical composition. -/
def nfkc (s : List Char) : List Char :=
  composeChars (s.flatMap nfkcChar)

/-- JavaScript `String.prototype.toLowerCase`, restricted to the ASCII
range (the only cased characters in this development). -/
def jsToLowerChar (c : Char) : Char :=
  if 65 ≤ c.toNat && c.toNat ≤ 90 then Char.ofNat (c.toNat + 32) else c

/-- `extremeNormalize` from `ChatInterface.tsx`: empty for null/undefined,
else trim, NFKC-normalize, strip all whitespace, lower-case. -/
def extremeNormalize (val : Option String) : String :=
  match val with
  | none => ""
  | some v =>
    String.mk (((nfkc (jsTrim v).toList).filter (fun c => !isJsWhitespace c)).map jsToLowerChar)

/-- `TARGET_HEADERS.CODE` from `ChatInterface.tsx`. -/
def TARGET_HEADERS_CODE : List String :=
  ["担当者コード", "担当者ｺｰﾄﾞ", "コード", "社員番号", "社員CD", "CD", "ID", "NO"]

/-- `TARGET_HEADERS.NAME` from `ChatInterface.tsx`. -/
def TARGET_HEADERS_NAME : List String :=
  ["担当者名", "氏名", "名前", "従業員名"]

/-- `TARGET_HEADERS.DEPT` from `ChatInterface.tsx`. -/
def TARGET_HEADERS_DEPT : List String :=
  ["所属名", "部署", "所属", "部署名", "課", "グループ"]

/-- `TARGET_HEADERS.ROLE` from `ChatInterface.tsx`. -/
def TARGET_HEADERS_ROLE : List String :=
  ["役職", "雇用", "区分", "役割", "職種", "形態"]

/-- The `isMatch` closure inside the header scan: the normalized cell
matches a synonym list if some entry's normalized form is equal to, or a
substring of, the normalized cell. -/
def isMatch (normalized : String) (list : List String) : Bool :=
  list.any fun k =>
    let nk := extremeNormalize (some k)
    normalized = nk || strIncludes normalized nk

/-- The column→field mapping built by the header scan; `-1` means unset,
exactly as in the source. -/
structure Mapping where
  code : Int
  name : Int
  dept : Int
  role : Int
deriving DecidableEq

/-- `currentMapping` together with `matchCount` during one row's scan. -/
structure ScanState where
  m : Mapping
  count : Nat
deriving DecidableEq

/-- JavaScript array indexing: `row[i]` is `undefined` (here `none`) when
`i` is negative or not below the row's length. -/
def cellAt (row : Row) (i : Int) : Option Cell :=
  if 0 ≤ i then row.get? i.toNat else none

/-- JavaScript `row[i] || d`: the default replaces a missing (`undefined`)
or empty-string cell. -/
def jsOrDefault (row : Row) (i : Int) (d : String) : String :=
  match cellAt row i with
  | none => d
  | some s => if s = "" then d else s

/-- The body of `row.forEach((cell, idx) => ...)` in the header scan of
`processWorkbookRobustly`: an if/else-if chain trying CODE, NAME, DEPT,
ROLE in order, each slot only when still unset, with the NAME slot also
requiring the normalized cell not to contain `@`. -/
def headerStep (st : ScanState) (idx : Int) (cell : Cell) : ScanState :=
  let normalized := extremeNormalize (some cell)
  if normalized = "" then st
  else if st.m.code == -1 && isMatch normalized TARGET_HEADERS_CODE then
    ⟨{ st.m with code := idx }, st.count + 1⟩
  else if st.m.name == -1 && isMatch normalized TARGET_HEADERS_NAME then
    if strIncludes normalized "@" then st
    else ⟨{ st.m with name := idx }, st.count + 1⟩
  else if st.m.dept == -1 && isMatch normalized TARGET_HEADERS_DEPT then
    ⟨{ st.m with dept := idx }, st.count + 1⟩
  else if st.m.role == -1 && isMatch normalized TARGET_HEADERS_ROLE then
    ⟨{ st.m with role := idx }, st.count + 1⟩
  else st

/-- One candidate row's left-to-right scan, starting from the all-unset
mapping and a zero match count. -/
def scanRow (row : Row) : ScanState :=
  row.enum.foldl (fun st p => headerStep st (p.1 : Int) p.2) ⟨⟨-1, -1, -1, -1⟩, 0⟩

/-- The header-locating loop `for (let i = 0; i < Math.min(rows.length, 50); i++)`,
carried out from absolute row index `k`: rows with fewer than 2 cells are
skipped, and the first row whose scan fills at least 2 field slots is
returned with its mapping. -/
def findHeaderAux : Grid → Nat → Option (Nat × Mapping)
  | [], _ => none
  | r :: rest, k =>
    if 50 ≤ k then none
    else if r.length < 2 then findHeaderAux rest (k + 1)
    else if 2 ≤ (scanRow r).count then some (k, (scanRow r).m)
    else findHeaderAux rest (k + 1)

/-- Header detection over the whole grid. -/
def findHeader (rows : Grid) : Option (Nat × Mapping) :=
  findHeaderAux rows 0

/-- The hard-coded positional mapping used when no header row is found. -/
def fallbackMapping : Mapping :=
  ⟨0, 1, 2, 3⟩

/-- `headerIndex` and `mapping` after the scan, with the row-0 fallback. -/
def headerAndMapping (rows : Grid) : Nat × Mapping :=
  match findHeader rows with
  | some hm => hm
  | none => (0, fallbackMapping)

/-- JavaScript `s.split(sep)` for a one-character separator, accumulating
the current field in reverse. -/
def splitCharsAux (sep : Char) : List Char → List Char → List (List Char)
  | [], acc => [acc.reverse]
  | c :: rest, acc =>
    if c = sep then acc.reverse :: splitCharsAux sep rest []
    else splitCharsAux sep rest (c :: acc)

/-- JavaScript `s.split(sep)` for a one-character separator. -/
def jsSplit (s : String) (sep : Char) : List String :=
  (splitCharsAux sep s.toList []).map String.mk

/-- The per-row body of the joined-cell recovery `rows.map(...)`: the row's
own first cell (`String(r[0] || "")`) picks the delimiter — tab if present,
else comma if present, else the row is kept unchanged. -/
def recoverRow (r : Row) : Row :=
  if strIncludes (jsOrDefault r 0 "") "\t" then jsSplit (jsOrDefault r 0 "") '\t'
  else if strIncludes (jsOrDefault r 0 "") "," then jsSplit (jsOrDefault r 0 "") ','
  else r

/-- Joined-cell recovery: applied only when every row has at most one cell. -/
def fixJoined (rows : Grid) : Grid :=
  if rows.all (fun r => decide (r.length ≤ 1)) then rows.map recoverRow else rows

/-- The emitted record, `Employee` from `src/types.ts`. -/
structure Employee where
  code : String
  name : String
  department : String
  role : String
  rawInfo : String
deriving DecidableEq

/-- A row qualifies as a header during the scan iff it has at least two
cells and its scan fills at least two field slots. -/
def headerCandidate (r : Row) : Prop :=
  2 ≤ r.length ∧ 2 ≤ (scanRow r).count

instance headerCandidate.instDecidable (r : Row) : Decidable (headerCandidate r) := by
  unfold headerCandidate; infer_instance

/-- The contribution of one header column (index and label) to `infoParts`
for a given data row: `none` when the trimmed data value at that column is
empty, else the labelled pair. -/
def rawInfoEntry (row : Row) (p : Nat × Cell) : Option String :=
  if jsTrim (jsOrDefault row ((p.1 : Int)) "") = "" then none
  else some (jsTrim (if p.2 = "" then "項目" ++ Nat.repr p.1 else p.2) ++ ": " ++
             jsTrim (jsOrDefault row ((p.1 : Int)) ""))

/-- The `infoParts` accumulation over the header row inside the data loop:
for every header column, the trimmed data value at that column, labelled by
the trimmed header label (or the synthesized `項目` label with the column
index appended when the label cell is empty), is
pushed when the value is non-empty. -/
def rawInfoParts (headerRow row : Row) : List String :=
  headerRow.enum.foldl
    (fun acc p =>
      if jsTrim (jsOrDefault row ((p.1 : Int)) "") = "" then acc
      else acc ++ [jsTrim (if p.2 = "" then "項目" ++ Nat.repr p.1 else p.2) ++ ": " ++
                   jsTrim (jsOrDefault row ((p.1 : Int)) "")])
    []

/-- `infoParts.join(", ")`. -/
def rawInfoOf (headerRow row : Row) : String :=
  String.intercalate ", " (rawInfoParts headerRow row)

/-- One iteration of the data-extraction loop at absolute row index `i`:
`none` when the row is empty or its trimmed name is empty or contains `@`,
otherwise the emitted record. -/
def rowToEmployee (m : Mapping) (headerRow : Row) (i : Nat) (row : Row) : Option Employee :=
  if row.length = 0 then none
  else if jsTrim (jsOrDefault row m.name "") = "" ∨
          strIncludes (jsTrim (jsOrDefault row m.name "")) "@" = true then none
  else some
    { code := if jsTrim (jsOrDefault row m.code "") = "" then Nat.repr i
              else jsTrim (jsOrDefault row m.code "")
      name := jsTrim (jsOrDefault row m.name "")
      department := jsTrim (jsOrDefault row m.dept "部署不明")
      role := jsTrim (jsOrDefault row m.role "一般")
      rawInfo := rawInfoOf headerRow row }

/-- The pipeline from header detection on: locate the header (with
fallback), then run the data loop over all rows strictly after it. -/
def processGrid (rows : Grid) : List Employee :=
  let hm := headerAndMapping rows
  let headerRow := rows.getD hm.1 []
  (rows.enum.drop (hm.1 + 1)).filterMap fun p => rowToEmployee hm.2 headerRow p.1 p.2

/-- `processWorkbookRobustly` from `ChatInterface.tsx`, starting from the
decoded grid: empty grid short-circuits, then joined-cell recovery, header
detection and row extraction. -/
def processWorkbookRobustly (rows0 : Grid) : List Employee :=
  if rows0.length = 0 then [] else processGrid (fixJoined rows0)

/-- The error message thrown when no records could be extracted. -/
def extractionFailureMsg : String :=
  "社員データが見つかりませんでした。1行目に「担当者名」などの項目名が含まれているか、区切り文字が正しいか確認してください。"

/-- `tryRead` from `extractEmployeesFromExcel`: reading the workbook at a
codepage and processing it, with any thrown exception (modelled as `none`
from the read oracle) converted to an empty record list. -/
def tryRead (readFn : Option Nat → Option Grid) (cp : Option Nat) : List Employee :=
  match readFn cp with
  | none => []
  | some g => processWorkbookRobustly g

/-- `extractEmployeesFromExcel` from `ChatInterface.tsx`, abstracted over
the `XLSX.read` oracle `readFn` (argument: the requested codepage): CSV
inputs try codepage 932 first, an empty result is retried at the default
codepage, and an empty final result becomes the descriptive error. -/
def extractEmployeesFromExcel (isCsv : Bool) (readFn : Option Nat → Option Grid) :
    Except String (List Employee) :=
  let first := if isCsv then tryRead readFn (some 932) else tryRead readFn none
  let employees := if first.isEmpty then tryRead readFn none else first
  if employees.isEmpty then Except.error extractionFailureMsg
  else Except.ok employees

/-! ### Auxiliary lemmas -/

theorem charsStartWith_refl (l : List Char) : charsStartWith l l = true := by
  induction l with
  | nil => rfl
  | cons c cs ih => simp [charsStartWith, ih]

theorem strIncludes_refl (s : String) : strIncludes s s = true := by
  unfold strIncludes
  cases h : s.toList with
  | nil => rfl
  | cons c cs => simp [charsContain, charsStartWith_refl]

theorem toDigitsCore_length_ge (b : Nat) (f : Nat) :
    ∀ (n : Nat) (l : List Char), l.length ≤ (Nat.toDigitsCore b f n l).length := by
  induction f with
  | zero => intro n l; exact Nat.le_refl _
  | succ f ih =>
    intro n l
    rw [Nat.toDigitsCore]
    split
    · exact Nat.le_succ _
    · exact Nat.le_trans (Nat.le_succ _) (ih (n / b) (Nat.digitChar (n % b) :: l))

theorem nat_repr_ne_empty (n : Nat) : Nat.repr n ≠ "" := by
  have h1 : 1 ≤ (Nat.toDigits 10 n).length := by
    unfold Nat.toDigits
    rw [Nat.toDigitsCore]
    split
    · simp
    · simpa using toDigitsCore_length_ge 10 n (n / 10) [Nat.digitChar (n % 10)]
  intro h
  have h2 := congrArg String.data h
  simp only [Nat.repr, List.asString] at h2
  rw [h2] at h1
  simp at h1

theorem headerStep_keeps_code (st : ScanState) (idx : Int) (cell : Cell)
    (h : st.m.code ≠ -1) : (headerStep st idx cell).m.code = st.m.code := by
  simp only [headerStep]
  split_ifs with h1 h2 h3 h4 h5 <;> simp_all

theorem headerStep_keeps_name (st : ScanState) (idx : Int) (cell : Cell)
    (h : st.m.name ≠ -1) : (headerStep st idx cell).m.name = st.m.name := by
  simp only [headerStep]
  split_ifs with h1 h2 h3 h4 h5 <;> simp_all

theorem headerStep_keeps_dept (st : ScanState) (idx : Int) (cell : Cell)
    (h : st.m.dept ≠ -1) : (headerStep st idx cell).m.dept = st.m.dept := by
  simp only [headerStep]
  split_ifs with h1 h2 h3 h4 h5 <;> simp_all

theorem headerStep_keeps_role (st : ScanState) (idx : Int) (cell : Cell)
    (h : st.m.role ≠ -1) : (headerStep st idx cell).m.role = st.m.role := by
  simp only [headerStep]
  split_ifs with h1 h2 h3 h4 h5 <;> simp_all

theorem findHeaderAux_some (g : Grid) : ∀ (k i : Nat) (m : Mapping),
    findHeaderAux g k = some (i, m) →
    k ≤ i ∧ i < 50 ∧ i - k < g.length ∧
    headerCandidate (g.getD (i - k) []) ∧
    m = (scanRow (g.getD (i - k) [])).m ∧
    ∀ d, d < i - k → ¬ headerCandidate (g.getD d []) := by
  induction g with
  | nil => intro k i m h; simp [findHeaderAux] at h
  | cons r rest ih =>
    intro k i m h
    rw [findHeaderAux] at h
    split at h
    · exact absurd h (by simp)
    next h50 =>
      split at h
      next hlen =>
        obtain ⟨hki, hi50, hlt, hcand, hm, hmin⟩ := ih (k + 1) i m h
        have hik : i - k = (i - (k + 1)) + 1 := by omega
        refine ⟨by omega, hi50, by simp only [List.length_cons]; omega, ?_, ?_, ?_⟩
        · rw [hik, List.getD_cons_succ]; exact hcand
        · rw [hik, List.getD_cons_succ]; exact hm
        · intro d hd
          match d with
          | 0 =>
            rw [List.getD_cons_zero]
            intro hc
            exact absurd hc.1 (by omega)
          | e + 1 =>
            rw [List.getD_cons_succ]
            exact hmin e (by omega)
      next hlen =>
        split at h
        next hcnt =>
          simp only [Option.some.injEq, Prod.mk.injEq] at h
          obtain ⟨rfl, rfl⟩ := h
          refine ⟨Nat.le_refl _, by omega, by simp, ?_, ?_, ?_⟩
          · rw [Nat.sub_self, List.getD_cons_zero]
            exact ⟨by omega, hcnt⟩
          · rw [Nat.sub_self, List.getD_cons_zero]
          · intro d hd
            exact absurd hd (by omega)
        next hcnt =>
          obtain ⟨hki, hi50, hlt, hcand, hm, hmin⟩ := ih (k + 1) i m h
          have hik : i - k = (i - (k + 1)) + 1 := by omega
          refine ⟨by omega, hi50, by simp only [List.length_cons]; omega, ?_, ?_, ?_⟩
          · rw [hik, List.getD_cons_succ]; exact hcand
          · rw [hik, List.getD_cons_succ]; exact hm
          · intro d hd
            match d with
            | 0 =>
              rw [List.getD_cons_zero]
              intro hc
              exact absurd hc.2 hcnt
            | e + 1 =>
              rw [List.getD_cons_succ]
              exact hmin e (by omega)

theorem findHeaderAux_none (g : Grid) : ∀ (k : Nat),
    (∀ d, d < g.length → k + d < 50 → ¬ headerCandidate (g.getD d [])) →
    findHeaderAux g k = none := by
  induction g with
  | nil => intro k H; rfl
  | cons r rest ih =>
    intro k H
    rw [findHeaderAux]
    by_cases h50 : 50 ≤ k
    · rw [if_pos h50]
    · rw [if_neg h50]
      have hrest : ∀ d, d < rest.length → (k + 1) + d < 50 → ¬ headerCandidate (rest.getD d []) := by
        intro d hd h50d
        have := H (d + 1) (by simp only [List.length_cons]; omega) (by omega)
        rwa [List.getD_cons_succ] at this
      by_cases hlen : r.length < 2
      · rw [if_pos hlen]
        exact ih (k + 1) hrest
      · rw [if_neg hlen]
        have h0 := H 0 (by simp) (by omega)
        rw [List.getD_cons_zero] at h0
        have hcnt : ¬ 2 ≤ (scanRow r).count := fun hc => h0 ⟨by omega, hc⟩
        rw [if_neg hcnt]
        exact ih (k + 1) hrest

theorem jsOrDefault_via_empty (row : Row) (i : Int) (d : String) :
    jsOrDefault row i d = if jsOrDefault row i "" = "" then d else jsOrDefault row i "" := by
  unfold jsOrDefault
  cases h : cellAt row i with
  | none => simp
  | some s =>
    by_cases hs : s = ""
    · simp [hs]
    · simp [hs]

theorem rowToEmployee_some (m : Mapping) (hr : Row) (i : Nat) (row : Row) (e : Employee)
    (h : rowToEmployee m hr i row = some e) :
    e.name = jsTrim (jsOrDefault row m.name "") ∧
    e.name ≠ "" ∧ strIncludes e.name "@" = false ∧
    e.code = (if jsTrim (jsOrDefault row m.code "") = "" then Nat.repr i
              else jsTrim (jsOrDefault row m.code "")) ∧
    e.code ≠ "" ∧
    e.department = jsTrim (jsOrDefault row m.dept "部署不明") ∧
    e.role = jsTrim (jsOrDefault row m.role "一般") ∧
    e.rawInfo = rawInfoOf hr row := by
  unfold rowToEmployee at h
  split at h
  · exact absurd h (by simp)
  · split at h
    · exact absurd h (by simp)
    next hcond =>
      push_neg at hcond
      obtain ⟨hne, hat⟩ := hcond
      have he := (Option.some.injEq _ _).mp h.symm
      subst he
      refine ⟨rfl, hne, ?_, rfl, ?_, rfl, rfl, rfl⟩
      · simp only [Bool.not_eq_true] at hat
        exact hat
      · by_cases hct : jsTrim (jsOrDefault row m.code "") = ""
        · rw [if_pos hct]
          exact nat_repr_ne_empty i
        · rw [if_neg hct]
          exact hct

theorem rawInfoParts_eq (hr row : Row) :
    rawInfoParts hr row = hr.enum.filterMap (rawInfoEntry row) := by
  have key : ∀ (l : List (Nat × Cell)) (acc : List String),
      l.foldl
        (fun acc p =>
          if jsTrim (jsOrDefault row ((p.1 : Int)) "") = "" then acc
          else acc ++ [jsTrim (if p.2 = "" then "項目" ++ Nat.repr p.1 else p.2) ++ ": " ++
                       jsTrim (jsOrDefault row ((p.1 : Int)) "")]) acc
        = acc ++ l.filterMap (rawInfoEntry row) := by
    intro l
    induction l with
    | nil => intro acc; simp
    | cons p t ih =>
      intro acc
      rw [List.foldl_cons, List.filterMap_cons]
      by_cases hv : jsTrim (jsOrDefault row ((p.1 : Int)) "") = ""
      · rw [if_pos hv, ih]
        simp [rawInfoEntry, hv]
      · rw [if_neg hv, ih]
        simp [rawInfoEntry, hv]
  unfold rawInfoParts
  simpa using key hr.enum []

/-! ### Claim theorems -/

/-- C1: header-row detection scans only the first 50 rows top-down, treats
a row as a candidate only when it has at least 2 cells, selects the first
row whose scan fills at least 2 of the four field slots (scanning stops
there), and the chosen mapping is that row's left-to-right scan result, in
which a field slot, once filled, is never overwritten by a later cell. -/
theorem locateHeader_greedy_first_candidate (rows : Grid) (i : Nat) (m : Mapping)
    (h : findHeader rows = some (i, m)) :
    i < 50 ∧ i < rows.length ∧ headerCandidate (rows.getD i []) ∧
    m = (scanRow (rows.getD i [])).m ∧
    (∀ j, j < i → ¬ headerCandidate (rows.getD j [])) ∧
    (∀ st idx cell, st.m.code ≠ -1 → (headerStep st idx cell).m.code = st.m.code) ∧
    (∀ st idx cell, st.m.name ≠ -1 → (headerStep st idx cell).m.name = st.m.name) ∧
    (∀ st idx cell, st.m.dept ≠ -1 → (headerStep st idx cell).m.dept = st.m.dept) ∧
    (∀ st idx cell, st.m.role ≠ -1 → (headerStep st idx cell).m.role = st.m.role) := by
  unfold findHeader at h
  obtain ⟨-, hi50, hlt, hcand, hm, hmin⟩ := findHeaderAux_some rows 0 i m h
  rw [Nat.sub_zero] at hlt hcand hm
  refine ⟨hi50, hlt, hcand, hm, ?_,
    headerStep_keeps_code, headerStep_keeps_name, headerStep_keeps_dept, headerStep_keeps_role⟩
  intro j hj
  have := hmin j (by omega)
  exact this

/-- Witness for C1 at a concrete two-row grid whose first row is a header. -/
theorem locateHeader_greedy_first_candidate_witness :
    (0 : Nat) < 50 ∧ 0 < ([["ID", "氏名"], ["7", "佐藤"]] : Grid).length ∧
    headerCandidate (([["ID", "氏名"], ["7", "佐藤"]] : Grid).getD 0 []) ∧
    (⟨0, 1, -1, -1⟩ : Mapping) = (scanRow (([["ID", "氏名"], ["7", "佐藤"]] : Grid).getD 0 [])).m ∧
    (∀ j, j < 0 → ¬ headerCandidate (([["ID", "氏名"], ["7", "佐藤"]] : Grid).getD j [])) ∧
    (∀ st idx cell, st.m.code ≠ -1 → (headerStep st idx cell).m.code = st.m.code) ∧
    (∀ st idx cell, st.m.name ≠ -1 → (headerStep st idx cell).m.name = st.m.name) ∧
    (∀ st idx cell, st.m.dept ≠ -1 → (headerStep st idx cell).m.dept = st.m.dept) ∧
    (∀ st idx cell, st.m.role ≠ -1 → (headerStep st idx cell).m.role = st.m.role) :=
  locateHeader_greedy_first_candidate [["ID", "氏名"], ["7", "佐藤"]] 0 ⟨0, 1, -1, -1⟩ (by decide)

/-- C9: `extremeNormalize` removes the leading ideographic space, folds
half-width katakana to full-width, and maps null/undefined to the empty
string, as instances of trim → NFKC → whitespace-strip → lower-case. -/
theorem extremeNormalize_folding :
    extremeNormalize (some "　担当者コード") = extremeNormalize (some "担当者コード") ∧
    extremeNormalize (some "ﾅｶﾑﾗ") = extremeNormalize (some "ナカムラ") ∧
    extremeNormalize none = "" :=
  ⟨by decide, by decide, rfl⟩

/-- C10: the data loop is total; a `-1` or out-of-range mapping index acts
as an empty cell — a missing name cell skips the row, a missing code cell
falls back to the stringified row ordinal, missing department and role
cells yield their sentinels. -/
theorem extraction_total_out_of_range (m : Mapping) (hr : Row) (i : Nat) (row : Row) :
    (cellAt row m.name = none → rowToEmployee m hr i row = none) ∧
    (∀ e, rowToEmployee m hr i row = some e →
      (cellAt row m.code = none → e.code = Nat.repr i) ∧
      (cellAt row m.dept = none → e.department = "部署不明") ∧
      (cellAt row m.role = none → e.role = "一般")) := by
  constructor
  · intro hname
    have hempty : jsOrDefault row m.name "" = "" := by
      unfold jsOrDefault; rw [hname]
    unfold rowToEmployee
    split
    · rfl
    · rw [if_pos (Or.inl (by rw [hempty]; decide))]
  · intro e he
    obtain ⟨-, -, -, hcode, -, hdept, hrole, -⟩ := rowToEmployee_some m hr i row e he
    refine ⟨?_, ?_, ?_⟩
    · intro hc
      have hempty : jsOrDefault row m.code "" = "" := by
        unfold jsOrDefault; rw [hc]
      rw [hcode, if_pos (by rw [hempty]; decide)]
    · intro hd
      have : jsOrDefault row m.dept "部署不明" = "部署不明" := by
        unfold jsOrDefault; rw [hd]
      rw [hdept, this]
      decide
    · intro hro
      have : jsOrDefault row m.role "一般" = "一般" := by
        unfold jsOrDefault; rw [hro]
      rw [hrole, this]
      decide

/-- Witness for C10: a mapping with every index unset skips the row when
the name is missing, and an in-range name with unset dept yields the
sentinel. -/
theorem extraction_total_out_of_range_witness :
    rowToEmployee ⟨-1, -1, -1, -1⟩ [] 0 ["x"] = none ∧
    (⟨"3", "田中", "部署不明", "一般", ""⟩ : Employee).department = "部署不明" :=
  ⟨(extraction_total_out_of_range ⟨-1, -1, -1, -1⟩ [] 0 ["x"]).1 (by decide),
   ((extraction_total_out_of_range ⟨-1, 0, -1, -1⟩ [] 3 ["田中"]).2
      ⟨"3", "田中", "部署不明", "一般", ""⟩ (by decide)).2.1 (by decide)⟩

/-- C3: every emitted record has a non-empty name not containing `@` and a
non-empty code; a data row whose trimmed name cell is empty or contains
`@` is silently skipped; the code is the trimmed code cell when non-empty,
else the row's stringified 0-based grid index. -/
theorem emitted_records_name_code :
    (∀ g e, e ∈ processWorkbookRobustly g →
      e.name ≠ "" ∧ strIncludes e.name "@" = false ∧ e.code ≠ "") ∧
    (∀ m hr i row,
      jsTrim (jsOrDefault row m.name "") = "" ∨
        strIncludes (jsTrim (jsOrDefault row m.name "")) "@" = true →
      rowToEmployee m hr i row = none) ∧
    (∀ m hr i row e, rowToEmployee m hr i row = some e →
      e.name = jsTrim (jsOrDefault row m.name "") ∧
      e.code = if jsTrim (jsOrDefault row m.code "") = "" then Nat.repr i
               else jsTrim (jsOrDefault row m.code "")) := by
  refine ⟨?_, ?_, ?_⟩
  · intro g e he
    unfold processWorkbookRobustly at he
    split at he
    · exact absurd he (by simp)
    · unfold processGrid at he
      rw [List.mem_filterMap] at he
      obtain ⟨p, -, hsome⟩ := he
      obtain ⟨-, hne, hat, -, hcode, -⟩ := rowToEmployee_some _ _ _ _ _ hsome
      exact ⟨hne, hat, hcode⟩
  · intro m hr i row hcond
    unfold rowToEmployee
    by_cases hlen : row.length = 0
    · rw [if_pos hlen]
    · rw [if_neg hlen, if_pos hcond]
  · intro m hr i row e he
    obtain ⟨hname, -, -, hcode, -⟩ := rowToEmployee_some m hr i row e he
    exact ⟨hname, hcode⟩

/-- Witness for C3 on a concrete grid and a concrete skipped row. -/
theorem emitted_records_name_code_witness :
    ((⟨"7", "佐藤", "部署不明", "一般", "ID: 7, 氏名: 佐藤"⟩ : Employee).name ≠ "" ∧
      strIncludes (⟨"7", "佐藤", "部署不明", "一般", "ID: 7, 氏名: 佐藤"⟩ : Employee).name "@" = false ∧
      (⟨"7", "佐藤", "部署不明", "一般", "ID: 7, 氏名: 佐藤"⟩ : Employee).code ≠ "") ∧
    rowToEmployee ⟨0, 1, -1, -1⟩ ["ID", "氏名"] 1 ["7", "a@b"] = none :=
  ⟨emitted_records_name_code.1 [["ID", "氏名"], ["7", "佐藤"]]
      ⟨"7", "佐藤", "部署不明", "一般", "ID: 7, 氏名: 佐藤"⟩ (by decide),
   emitted_records_name_code.2.1 ⟨0, 1, -1, -1⟩ ["ID", "氏名"] 1 ["7", "a@b"]
      (Or.inr (by decide))⟩

/-- C4 counterexample: a department cell consisting only of whitespace
yields the empty string, not the sentinel, because the sentinel is
substituted before trimming. -/
theorem dept_whitespace_counterexample :
    processWorkbookRobustly [["担当者コード", "氏名", "部署"], ["1", "田中", " "]] =
      [⟨"1", "田中", "", "一般", "担当者コード: 1, 氏名: 田中"⟩] ∧
    (⟨"1", "田中", "", "一般", "担当者コード: 1, 氏名: 田中"⟩ : Employee).department ≠ "部署不明" :=
  ⟨by decide, by decide⟩

/-- C4 amended: the sentinel replaces the raw department/role cell only
when that cell is missing or empty BEFORE trimming; a non-empty cell is
trimmed as-is, so a whitespace-only cell yields the empty string. -/
theorem dept_role_sentinel_before_trim (m : Mapping) (hr : Row) (i : Nat) (row : Row)
    (e : Employee) (h : rowToEmployee m hr i row = some e) :
    (jsOrDefault row m.dept "" = "" → e.department = "部署不明") ∧
    (jsOrDefault row m.dept "" ≠ "" → e.department = jsTrim (jsOrDefault row m.dept "")) ∧
    (jsOrDefault row m.role "" = "" → e.role = "一般") ∧
    (jsOrDefault row m.role "" ≠ "" → e.role = jsTrim (jsOrDefault row m.role "")) := by
  obtain ⟨-, -, -, -, -, hdept, hrole, -⟩ := rowToEmployee_some m hr i row e h
  rw [jsOrDefault_via_empty row m.dept "部署不明"] at hdept
  rw [jsOrDefault_via_empty row m.role "一般"] at hrole
  refine ⟨?_, ?_, ?_, ?_⟩
  · intro hd
    rw [hdept, if_pos hd]
    decide
  · intro hd
    rw [hdept, if_neg hd]
  · intro hro
    rw [hrole, if_pos hro]
    decide
  · intro hro
    rw [hrole, if_neg hro]

/-- Witness for the amended C4 at the whitespace-department row. -/
theorem dept_role_sentinel_before_trim_witness :
    (⟨"1", "田中", "", "一般", "担当者コード: 1, 氏名: 田中"⟩ : Employee).department =
      jsTrim (jsOrDefault ["1", "田中", " "] (2 : Int) "") :=
  (dept_role_sentinel_before_trim ⟨0, 1, 2, -1⟩ ["担当者コード", "氏名", "部署"] 1
      ["1", "田中", " "] ⟨"1", "田中", "", "一般", "担当者コード: 1, 氏名: 田中"⟩
      (by decide)).2.1 (by decide)

/-- C5 counterexample: the match test is one-directional — a cell whose
normalized form is a proper substring of a synonym's normalized form does
not match, although the claim's criterion says it should. -/
theorem isMatch_one_directional_counterexample :
    "コード" ∈ TARGET_HEADERS_CODE ∧
    strIncludes (extremeNormalize (some "コード")) (extremeNormalize (some "コー")) = true ∧
    extremeNormalize (some "コー") ≠ extremeNormalize (some "コード") ∧
    isMatch (extremeNormalize (some "コー")) TARGET_HEADERS_CODE = false :=
  ⟨by decide, by decide, by decide, by decide⟩

/-- C5 amended: a header cell matches a synonym list iff some entry's
normalized form is equal to or a substring of the cell's normalized form;
a cell strictly contained in an entry does not match. -/
theorem isMatch_iff_entry_substring (cell : String) (list : List String) :
    isMatch (extremeNormalize (some cell)) list = true ↔
      ∃ k ∈ list,
        strIncludes (extremeNormalize (some cell)) (extremeNormalize (some k)) = true := by
  unfold isMatch
  rw [List.any_eq_true]
  constructor
  · rintro ⟨k, hk, hor⟩
    refine ⟨k, hk, ?_⟩
    simp only [Bool.or_eq_true, decide_eq_true_eq] at hor
    rcases hor with heq | hinc
    · rw [heq]
      exact strIncludes_refl _
    · exact hinc
  · rintro ⟨k, hk, hinc⟩
    refine ⟨k, hk, ?_⟩
    simp [hinc]

/-- C6 counterexample: with a tab in the first row's only cell and a comma
in the second row's only cell, the rows are split on different delimiters;
the delimiter is not taken uniformly from the grid's first cell (which
would leave the second row as the single cell "c,d"). -/
theorem fixJoined_counterexample :
    fixJoined [["a\tb"], ["c,d"]] = [["a", "b"], ["c", "d"]] ∧
    ([["a", "b"], ["c", "d"]] : Grid) ≠ [["a", "b"], ["c,d"]] :=
  ⟨by decide, by decide⟩

/-- C6 amended: when every row of the grid has at most one cell, each row
is resplit independently using the delimiter found in that row's own first
cell — tab if present, else comma if present, else the row is unchanged. -/
theorem fixJoined_per_row (rows : Grid)
    (hall : rows.all (fun r => decide (r.length ≤ 1)) = true) (j : Nat)
    (hj : j < rows.length) :
    (fixJoined rows).getD j [] =
      (if strIncludes (jsOrDefault (rows.getD j []) 0 "") "\t" = true
       then jsSplit (jsOrDefault (rows.getD j []) 0 "") '\t'
       else if strIncludes (jsOrDefault (rows.getD j []) 0 "") "," = true
       then jsSplit (jsOrDefault (rows.getD j []) 0 "") ','
       else rows.getD j []) := by
  unfold fixJoined
  rw [if_pos hall]
  rw [List.getD_eq_getElem?_getD, List.getElem?_map, List.getElem?_eq_getElem hj]
  rw [List.getD_eq_getElem?_getD, List.getElem?_eq_getElem hj]
  simp [recoverRow]

/-- Witness for the amended C6 on a one-row comma-joined grid. -/
theorem fixJoined_per_row_witness :
    (fixJoined [["a,b"]]).getD 0 [] = ["a", "b"] :=
  (fixJoined_per_row [["a,b"]] (by decide) 0 (by decide)).trans (by decide)

/-- C7: when no row among the first 50 is a header candidate, row 0 is
assumed to be the header with the positional mapping code 0, name 1,
dept 2, role 3, and extraction proceeds over the remaining rows without
any failure. -/
theorem fallback_positional_mapping (rows : Grid)
    (H : ∀ j, j < rows.length → j < 50 → ¬ headerCandidate (rows.getD j [])) :
    headerAndMapping rows = (0, fallbackMapping) ∧
    processGrid rows =
      (rows.enum.drop 1).filterMap
        fun p => rowToEmployee fallbackMapping (rows.getD 0 []) p.1 p.2 := by
  have hnone : findHeader rows = none := by
    unfold findHeader
    exact findHeaderAux_none rows 0 (fun d hd h50 => H d hd (by omega))
  constructor
  · unfold headerAndMapping
    rw [hnone]
  · unfold processGrid headerAndMapping
    rw [hnone]

/-- Witness for C7 on a grid with no synonym matches. -/
theorem fallback_positional_mapping_witness :
    headerAndMapping [["x", "y"], ["a", "b"]] = (0, fallbackMapping) :=
  (fallback_positional_mapping [["x", "y"], ["a", "b"]] (by decide)).1

/-- C8: the round-trip example — header row ID / 氏名 with values 7 / 佐藤
produces exactly the rawInfo "ID: 7, 氏名: 佐藤" — and in general the
parts are one labelled pair per header column whose trimmed data value is
non-empty, in header order, joined by a comma-space. -/
theorem rawInfo_shape :
    processWorkbookRobustly [["ID", "氏名"], ["7", "佐藤"]] =
      [⟨"7", "佐藤", "部署不明", "一般", "ID: 7, 氏名: 佐藤"⟩] ∧
    ∀ hr row, rawInfoOf hr row =
      String.intercalate ", " (hr.enum.filterMap (rawInfoEntry row)) := by
  constructor
  · decide
  · intro hr row
    unfold rawInfoOf
    rw [rawInfoParts_eq]

/-- C2: for a CSV input, codepage 932 is tried first; the default decode
runs only when the first attempt is empty; the descriptive error is
produced exactly when both attempts are empty, and otherwise the result is
the non-empty record list of the first successful attempt. -/
theorem extractEmployees_csv_fallback (readFn : Option Nat → Option Grid) :
    (extractEmployeesFromExcel true readFn = Except.error extractionFailureMsg ↔
      tryRead readFn (some 932) = [] ∧ tryRead readFn none = []) ∧
    (tryRead readFn (some 932) ≠ [] →
      extractEmployeesFromExcel true readFn = Except.ok (tryRead readFn (some 932))) ∧
    (tryRead readFn (some 932) = [] → tryRead readFn none ≠ [] →
      extractEmployeesFromExcel true readFn = Except.ok (tryRead readFn none)) ∧
    (∀ es, extractEmployeesFromExcel true readFn = Except.ok es → es ≠ []) := by
  by_cases h1 : tryRead readFn (some 932) = []
  · by_cases h2 : tryRead readFn none = []
    · refine ⟨?_, ?_, ?_, ?_⟩
      · simp [extractEmployeesFromExcel, h1, h2]
      · intro hne
        exact absurd h1 hne
      · intro h1b hne
        exact absurd h2 hne
      · intro es hok
        rw [show extractEmployeesFromExcel true readFn = Except.error extractionFailureMsg from
          by simp [extractEmployeesFromExcel, h1, h2]] at hok
        exact absurd hok (by simp)
    · have hres : extractEmployeesFromExcel true readFn = Except.ok (tryRead readFn none) := by
        simp [extractEmployeesFromExcel, h1, h2]
      refine ⟨?_, ?_, ?_, ?_⟩
      · rw [hres]
        simp [h2]
      · intro hne
        exact absurd h1 hne
      · intro h1b hne
        exact hres
      · intro es hok
        rw [hres] at hok
        obtain rfl := Except.ok.inj hok
        exact h2
  · have hres : extractEmployeesFromExcel true readFn = Except.ok (tryRead readFn (some 932)) := by
      simp [extractEmployeesFromExcel, h1]
    refine ⟨?_, ?_, ?_, ?_⟩
    · rw [hres]
      simp [h1]
    · intro hne
      exact hres
    · intro h1b hne
      exact absurd h1b h1
    · intro es hok
      rw [hres] at hok
      obtain rfl := Except.ok.inj hok
      exact h1

/-- Witness for C2: a read oracle producing a parsable grid at codepage
932 resolves with that attempt's records. -/
theorem extractEmployees_csv_fallback_witness :
    extractEmployeesFromExcel true (fun _ => some [["ID", "氏名"], ["7", "佐藤"]]) =
      Except.ok (tryRead (fun _ => some [["ID", "氏名"], ["7", "佐藤"]]) (some 932)) :=
  (extractEmployees_csv_fallback (fun _ => some [["ID", "氏名"], ["7", "佐藤"]])).2.1 (by decide)
